import Mathlib

/-!
# Verification of the tuba task-assistant core

Shallow embedding of the task-extraction pipeline (`src/utils.py`), the
persistence filter (`push_airtable`) and the `/add` handler's reminder
scheduling (`src/bot.py`).  Python JSON values are modelled by `JVal`,
Python dicts by insertion-ordered association lists (`Row`), exceptions by
`Option`/`Except`.  External libraries (OpenAI, dateutil, datetime,
pyairtable, the telegram job queue) are modelled as parameters or as the
data handed to them, never as repository code.
-/

/-- A Python/JSON value as it flows through `analyse_tasks`.
Numbers are modelled as rationals (covers Python ints and the
non-special floats the JSON layer can produce). -/
inductive JVal where
  | null : JVal
  | bool : Bool → JVal
  | num : ℚ → JVal
  | str : String → JVal
  | arr : List JVal → JVal
  | obj : List (String × JVal) → JVal
deriving Repr

/-- A Python dict with string keys: insertion-ordered association list.
Dicts produced by `json.loads` have pairwise-distinct keys; the
operations below mirror CPython dict semantics. -/
abbrev Row := List (String × JVal)

/-- `d[k]` / `d.get(k)`: first binding of `key`. -/
def lookupR : Row → String → Option JVal
  | [], _ => none
  | (k, v) :: rest, key => if k = key then some v else lookupR rest key

/-- `d.get(key, default)`. -/
def getR (r : Row) (key : String) (dflt : JVal) : JVal :=
  (lookupR r key).getD dflt

/-- `d[key] = val`: replace in place if present, else append at the end. -/
def setR : Row → String → JVal → Row
  | [], key, val => [(key, val)]
  | (k, v) :: rest, key, val =>
      if k = key then (k, val) :: rest else (k, v) :: setR rest key val

/-- `d.setdefault(key, val)`: keep the dict if the key is present,
otherwise append the binding at the end. -/
def setdefaultR (r : Row) (key : String) (val : JVal) : Row :=
  match lookupR r key with
  | some _ => r
  | none => r ++ [(key, val)]

/-- The removal part of `d.pop(key, default)`. -/
def popR : Row → String → Row
  | [], _ => []
  | (k, v) :: rest, key => if k = key then rest else (k, v) :: popR rest key

/-- `dict.update`: `setR` each binding of `extras` in order. -/
def updateR (row extras : Row) : Row :=
  extras.foldl (fun r kv => setR r kv.1 kv.2) row

/-- Python truthiness of a value (`if v:` / `v or default`). -/
def truthy : JVal → Bool
  | .null => false
  | .bool b => b
  | .num q => !(q == 0)
  | .str s => !(s == "")
  | .arr xs => !xs.isEmpty
  | .obj kvs => !kvs.isEmpty

/-- `v is None` test used by the persistence filter. -/
def isNull : JVal → Bool
  | .null => true
  | _ => false

/-- Truncation toward zero, the rounding of Python `int(float)`. -/
def pyTrunc (q : ℚ) : ℤ := Int.tdiv q.num q.den

/-- Accumulate a decimal digit string; `none` if a non-digit appears. -/
def digitsVal : List Char → ℕ → Option ℕ
  | [], acc => some acc
  | c :: rest, acc =>
      if c.isDigit then digitsVal rest (acc * 10 + (c.toNat - 48)) else none

/-- Python `int(s)` on a string: optional surrounding whitespace, optional
sign, then a non-empty run of decimal digits; `none` models the
`ValueError` raised on anything else (e.g. `"ten"`, `"7.5"`, `""`). -/
def pyIntOfStr (s : String) : Option ℤ :=
  let cs := (s.toList.dropWhile Char.isWhitespace).reverse.dropWhile Char.isWhitespace
  match cs.reverse with
  | [] => none
  | '-' :: rest =>
      match rest with
      | [] => none
      | _ => (digitsVal rest 0).map (fun n => -(n : ℤ))
  | '+' :: rest =>
      match rest with
      | [] => none
      | _ => (digitsVal rest 0).map (fun n => (n : ℤ))
  | cs2 => (digitsVal cs2 0).map (fun n => (n : ℤ))

/-- Python `int(v)` on a JSON value; `none` models the raised
`TypeError`/`ValueError` (which `analyse_tasks` does not catch). -/
def pyInt : JVal → Option ℤ
  | .bool b => some (if b then 1 else 0)
  | .num q => some (pyTrunc q)
  | .str s => pyIntOfStr s
  | _ => none

/-- `CATEGORIES` from `utils.py`: the six fixed effort labels in
ascending order of duration. -/
def CATEGORIES : List String :=
  ["🕑 Lifeline", "⚡ Quick Task", "🔹 Small Task",
   "🔸 Focused Sprint", "🔶 1 Hour Challenge", "🔥 Deep Work"]

/-- `_bucket` from `utils.py`: duration in minutes to effort label.
Minutes are rational because the source compares against `1.5`. -/
def _bucket (mins : ℚ) : String :=
  if mins ≤ 1.5 then "🕑 Lifeline"
  else if mins ≤ 5 then "⚡ Quick Task"
  else if mins ≤ 10 then "🔹 Small Task"
  else if mins ≤ 25 then "🔸 Focused Sprint"
  else if mins ≤ 60 then "🔶 1 Hour Challenge"
  else "🔥 Deep Work"

/-- Position of a label in `CATEGORIES`; the order against which the
bucketing is monotone. -/
def catIdx (s : String) : ℕ := CATEGORIES.indexOf s

/-! ## `analyse_tasks` (utils.py lines 35-102)

The OpenAI call, `json.loads`, and `dateutil.parser.parse` are external
services; they enter the embedding as parameters (`llm`, `parseJson`,
`parseDate`).  A parsed `datetime` is a calendar date (an epoch-day
integer, a faithful bijective rendering of a `datetime.date`) together
with a time-of-day; `toIso` models `date.isoformat()`. -/

/-- The prompt built on utils.py lines 46-55 from the free text and the
allowed client/project vocabularies. -/
def promptFor (clients projects : List String) (text : String) : String :=
  "You are a productivity-game assistant.\n" ++
  "Allowed clients: " ++ String.intercalate ", " clients ++ "\n" ++
  "Allowed projects: " ++ String.intercalate ", " projects ++ "\n" ++
  "For each task sentence, return JSON objects with EXACTLY these keys:\n" ++
  "  Task, Client, Project, Est. Minutes, Timer Category, Early Bonus, Penalty, Actual Minutes, DueDate (optional)\n" ++
  "Do NOT include any extra keys or prose.\n\nTEXT:\n" ++ text ++ "\n"

/-- `int(row.get("Est. Minutes", 0) or 0)` (utils.py line 78);
`none` models the uncaught exception from `int()`. -/
def coerceMins (row : Row) : Option ℤ :=
  let v := getR row "Est. Minutes" (.num 0)
  pyInt (if truthy v then v else .num 0)

/-- `raw_due = row.pop("DueDate", None) or row.pop("Due Date", None)`
(utils.py line 92).  Python's `or` short-circuits: when the popped
`"DueDate"` value is truthy, `"Due Date"` is NOT popped.  Returns the
raw value and the row after the pops that actually ran. -/
def popDue (row : Row) : JVal × Row :=
  if truthy (getR row "DueDate" .null) then
    (getR row "DueDate" .null, popR row "DueDate")
  else
    (getR (popR row "DueDate") "Due Date" .null,
     popR (popR row "DueDate") "Due Date")

/-- Due-date normalization, utils.py lines 91-100.  `parseDate raw` is
`dateutil.parser.parse(raw, default=datetime.now())`: `none` models the
exception swallowed on line 97, `some (d, t)` a parsed datetime with
calendar date `d` and time-of-day `t`; the source keeps `dt.date()` only
and stores its `isoformat()` string. -/
def dueStep (parseDate : JVal → Option (ℤ × ℚ)) (toIso : ℤ → String)
    (row : Row) : Row :=
  if truthy (popDue row).1 then
    match parseDate (popDue row).1 with
    | some dt => setR (popDue row).2 "DueDate" (.str (toIso dt.1))
    | none => setR (popDue row).2 "DueDate" .null
  else setR (popDue row).2 "DueDate" .null

/-- The body of the `for row in data` loop, utils.py lines 76-100:
coerce `Est. Minutes`, recompute `Timer Category`, fill defaults,
normalize the due date.  `none` models the uncaught `int()` exception. -/
def processRow (parseDate : JVal → Option (ℤ × ℚ)) (toIso : ℤ → String)
    (row : Row) : Option Row :=
  match coerceMins row with
  | none => none
  | some m =>
      let r1 := setR row "Est. Minutes" (.num (m : ℚ))
      let r2 := setR r1 "Timer Category" (.str (_bucket (m : ℚ)))
      let r3 := setdefaultR r2 "Client" (.str "General")
      let r4 := setdefaultR r3 "Project" (.str "General")
      let r5 := setdefaultR r4 "Early Bonus" (.num 0)
      let r6 := setdefaultR r5 "Penalty" (.num 0)
      let r7 := setdefaultR r6 "Actual Minutes" .null
      some (dueStep parseDate toIso r7)

/-- utils.py lines 70-74: unwrap a dict nested under `"tasks"`, then
wrap a lone dict into a one-element list. -/
def unwrapData (data : JVal) : JVal :=
  let d1 := match data with
    | .obj kvs =>
        match lookupR kvs "tasks" with
        | some v => v
        | none => .obj kvs
    | other => other
  match d1 with
  | .obj kvs => .arr [.obj kvs]
  | other => other

/-- The `for row in data` iteration requires a list of dicts; anything
else raises (`TypeError`/`AttributeError`), modelled by `none`. -/
def asRows : JVal → Option (List Row)
  | .arr xs =>
      xs.mapM (fun x => match x with | .obj kvs => some kvs | _ => none)
  | _ => none

/-- The distinguishable failures `analyse_tasks` can propagate. -/
inductive PyErr where
  | runtimeErr : String → PyErr
  | jsonDecodeErr : PyErr
  | typeErr : PyErr
  | valueErr : PyErr
deriving Repr, DecidableEq

/-- `analyse_tasks` (utils.py lines 35-102).  `llm` is the OpenAI chat
call on the built prompt: `Except.error e` models a raised
`OpenAIError e`, re-raised on line 66 as `RuntimeError("OpenAI error → "
+ e)`; `Except.ok content` is the response content.  `parseJson` is
`json.loads` (`none` = `JSONDecodeError`, uncaught on line 68). -/
def analyse_tasks (llm : String → Except String String)
    (parseJson : String → Option JVal)
    (parseDate : JVal → Option (ℤ × ℚ)) (toIso : ℤ → String)
    (text : String) (clients projects : List String) :
    Except PyErr (List Row) :=
  match llm (promptFor clients projects text) with
  | .error e => .error (.runtimeErr ("OpenAI error → " ++ e))
  | .ok content =>
      match parseJson content with
      | none => .error .jsonDecodeErr
      | some data =>
          match asRows (unwrapData data) with
          | none => .error .typeErr
          | some rows =>
              match rows.mapM (processRow parseDate toIso) with
              | none => .error .valueErr
              | some out => .ok out

/-! ## Persistence (utils.py lines 105-119) -/

/-- `MUTABLE_FIELDS` from utils.py: the allow-list of writable fields. -/
def MUTABLE_FIELDS : List String :=
  ["Task", "Client", "Project", "Timer Category", "Est. Minutes",
   "Early Bonus", "Penalty", "Actual Minutes", "DueDate"]

/-- utils.py line 118: `{k: v for k, v in r.items() if k in
MUTABLE_FIELDS and v is not None}`. -/
def cleanRow (r : Row) : Row :=
  r.filter (fun kv => MUTABLE_FIELDS.contains kv.1 && !(isNull kv.2))

/-- `push_airtable` (utils.py lines 110-119): the list of records handed
to `table.create`, one cleaned record per input row, in order. -/
def push_airtable (rows : List Row) : List Row :=
  rows.map cleanRow

/-! ## `/add` handler (bot.py lines 120-167)

`LOCAL_TZ` is UTC in the source; a calendar date is an epoch-day
integer `d`, and `datetime.combine(d, time(9, tzinfo=LOCAL_TZ))
.timestamp()` is `d * 86400 + 9 * 3600` seconds.  `job_queue.run_once`
is the external one-shot delayed-execution facility; the embedding
records exactly the callback and the `when` argument handed to it. -/

/-- POSIX timestamp of 09:00 local time (UTC) on epoch day `d`,
the value `datetime.combine(d, time(9, tzinfo=LOCAL_TZ)).timestamp()`
passed to `run_once` on bot.py lines 156-164. -/
def ts9 (d : ℤ) : ℤ := d * 86400 + 9 * 3600

/-- One entry handed to `job_queue.run_once` by the `/add` handler:
either the 4-hour nudge (`run_once(_after_4h, 4*60*60, ...)`, a delay
in seconds from creation time) or a due-date reminder
(`run_once(_due_reminder, <instant>.timestamp(), ...)`, the computed
09:00 fire instant).  `task` is the `row["Task"]` value put in the job
data; `label` the reminder label. -/
inductive Job where
  | nudge : ℤ → JVal → Job
  | dueReminder : ℤ → JVal → String → Job
deriving Repr

/-- bot.py lines 147-164: the reminder entries scheduled for one created
row, in source order, paired with `true` when the block ran to
completion.  The 4-hour nudge is registered on line 150, before the
due-date block, so it survives a later exception.  `fromIso` is
`datetime.fromisoformat(...).date()` (`none` = raised `ValueError`);
a missing `"Task"` key raises before anything is registered, a
non-string or unparseable `DueDate` raises after the nudge: those
branches return `false` (uncaught exception escapes the handler). -/
def schedule_reminders (fromIso : String → Option ℤ) (row : Row) :
    List Job × Bool :=
  match lookupR row "Task" with
  | none => ([], false)
  | some tv =>
      if truthy (getR row "DueDate" .null) then
        match getR row "DueDate" .null with
        | .str s =>
            match fromIso s with
            | some d =>
                ([.nudge (4 * 60 * 60) tv,
                  .dueReminder (ts9 (d - 1)) tv "⏳ due *tomorrow*",
                  .dueReminder (ts9 d) tv "🚨 due *today*",
                  .dueReminder (ts9 (d - 2)) tv "⚠️ due in 2 days"], true)
            | none => ([.nudge (4 * 60 * 60) tv], false)
        | _ => ([.nudge (4 * 60 * 60) tv], false)
      else ([.nudge (4 * 60 * 60) tv], true)

/-- bot.py line 139: `row.update(extras); row.setdefault("Done", False)`
— the record actually handed to `table.create` on the `/add` path
(no allow-list filtering here). -/
def botPrepRow (extras row : Row) : Row :=
  setdefaultR (updateR row extras) "Done" (.bool false)

/-- The reply sent back by the `/add` handler. -/
inductive Reply where
  | usageHint : Reply
  | gptFail : Reply
  | storeFail : Reply
  | added : ℕ → Reply
deriving Repr, DecidableEq

/-- How the `for row in rows` loop of bot.py lines 138-164 ended:
normally, by the caught `ApiError` early return, or by an uncaught
exception escaping the handler. -/
inductive LoopEnd where
  | finished : LoopEnd
  | storeFailed : LoopEnd
  | crashed : LoopEnd
deriving Repr, DecidableEq

/-- The `for row in rows` loop of bot.py lines 138-164.  `storeOk r`
models `table.create(r)` (false = raised `ApiError`, caught on line
142: the handler replies and returns, keeping earlier creations).
Returns created records, registered jobs, and how the loop ended. -/
def botLoop (storeOk : Row → Bool) (fromIso : String → Option ℤ)
    (extras : Row) : List Row → List Row × List Job × LoopEnd
  | [] => ([], [], .finished)
  | row :: rest =>
      if storeOk (botPrepRow extras row) then
        if (schedule_reminders fromIso (botPrepRow extras row)).2 then
          ((botPrepRow extras row) ::
             (botLoop storeOk fromIso extras rest).1,
           (schedule_reminders fromIso (botPrepRow extras row)).1 ++
             (botLoop storeOk fromIso extras rest).2.1,
           (botLoop storeOk fromIso extras rest).2.2)
        else
          ([botPrepRow extras row],
           (schedule_reminders fromIso (botPrepRow extras row)).1, .crashed)
      else ([], [], .storeFailed)

/-- Outcome of one `/add` invocation: records created in the backend,
reminder jobs registered, and the reply sent (`none` when an uncaught
exception escaped the handler before any reply). -/
structure AddOutcome where
  created : List Row
  jobs : List Job
  reply : Option Reply
deriving Repr

/-- The `/add` handler, bot.py lines 120-167.  `rawEmpty` is
`not " ".join(c.args)`; `analyseRes` the result of the `analyse_tasks`
call (any raised exception is caught on line 133 and answered with the
"GPT couldn’t parse that" reply, creating nothing). -/
def add (rawEmpty : Bool) (analyseRes : Except PyErr (List Row))
    (extras : Row) (storeOk : Row → Bool)
    (fromIso : String → Option ℤ) : AddOutcome :=
  if rawEmpty then ⟨[], [], some .usageHint⟩
  else
    match analyseRes with
    | .error _ => ⟨[], [], some .gptFail⟩
    | .ok rows =>
        match botLoop storeOk fromIso extras rows with
        | (cr, js, .finished) => ⟨cr, js, some (.added rows.length)⟩
        | (cr, js, .storeFailed) => ⟨cr, js, some .storeFail⟩
        | (cr, js, .crashed) => ⟨cr, js, none⟩

/-! ## Lemmas about the dict operations -/

theorem lookupR_setR_self (r : Row) (k : String) (v : JVal) :
    lookupR (setR r k v) k = some v := by
  induction r with
  | nil => simp [setR, lookupR]
  | cons head tail ih =>
      obtain ⟨a, b⟩ := head
      by_cases h : a = k
      · simp [setR, h, lookupR]
      · simp [setR, h, lookupR, ih]

theorem lookupR_setR_ne (r : Row) {k key : String} (v : JVal)
    (h : key ≠ k) : lookupR (setR r k v) key = lookupR r key := by
  induction r with
  | nil => simp [setR, lookupR, Ne.symm h]
  | cons head tail ih =>
      obtain ⟨a, b⟩ := head
      by_cases hak : a = k
      · subst hak
        simp [setR, lookupR, Ne.symm h]
      · by_cases hakey : a = key <;>
          simp [setR, lookupR, hak, hakey, ih, h]

theorem lookupR_append_of_none {r : Row} {k : String}
    (h : lookupR r k = none) (s : Row) :
    lookupR (r ++ s) k = lookupR s k := by
  induction r with
  | nil => simp
  | cons head tail ih =>
      obtain ⟨a, b⟩ := head
      by_cases hak : a = k
      · simp [lookupR, hak] at h
      · simp only [lookupR, hak, if_false, List.cons_append] at h ⊢
        simp [lookupR, hak] at h ⊢
        exact ih h

theorem lookupR_append_of_some {r : Row} {k : String} {v : JVal}
    (h : lookupR r k = some v) (s : Row) :
    lookupR (r ++ s) k = some v := by
  induction r with
  | nil => simp [lookupR] at h
  | cons head tail ih =>
      obtain ⟨a, b⟩ := head
      by_cases hak : a = k <;> simp [lookupR, hak] at h ⊢
      · exact h
      · exact ih h

theorem lookupR_setdefaultR_self (r : Row) (k : String) (v : JVal) :
    lookupR (setdefaultR r k v) k = some ((lookupR r k).getD v) := by
  unfold setdefaultR
  cases h : lookupR r k with
  | none =>
      simp only [h, Option.getD_none]
      rw [lookupR_append_of_none h]
      simp [lookupR]
  | some w => simp [h]

theorem lookupR_setdefaultR_ne (r : Row) {k key : String} (v : JVal)
    (h : key ≠ k) :
    lookupR (setdefaultR r k v) key = lookupR r key := by
  unfold setdefaultR
  cases hk : lookupR r k with
  | none =>
      cases hkey : lookupR r key with
      | none =>
          rw [lookupR_append_of_none hkey]
          simp [lookupR, Ne.symm h, hkey]
      | some w => rw [lookupR_append_of_some hkey]
  | some w => rfl

theorem lookupR_popR_ne (r : Row) {k key : String} (h : key ≠ k) :
    lookupR (popR r k) key = lookupR r key := by
  induction r with
  | nil => simp [popR]
  | cons head tail ih =>
      obtain ⟨a, b⟩ := head
      by_cases hak : a = k
      · subst hak
        simp [popR, lookupR, Ne.symm h]
      · by_cases hakey : a = key <;>
          simp [popR, lookupR, hak, hakey, ih, h]

theorem lookupR_popR_of_none {r : Row} {key : String}
    (h : lookupR r key = none) (k : String) :
    lookupR (popR r k) key = none := by
  induction r with
  | nil => simp [popR, lookupR]
  | cons head tail ih =>
      obtain ⟨a, b⟩ := head
      by_cases hak : a = k
      · simp only [lookupR] at h
        by_cases hakey : a = key
        · simp [hakey] at h
        · simp [hakey] at h
          simp [popR, hak, h]
      · simp only [lookupR] at h
        by_cases hakey : a = key
        · simp [hakey] at h
        · simp [hakey] at h
          simp [popR, lookupR, hak, hakey, ih h]

theorem popR_sublist (r : Row) (k : String) : (popR r k).Sublist r := by
  induction r with
  | nil => simp [popR]
  | cons head tail ih =>
      obtain ⟨a, b⟩ := head
      by_cases hak : a = k
      · simp only [popR, if_pos hak]
        exact List.sublist_cons_self _ _
      · simp only [popR, if_neg hak]
        exact List.Sublist.cons₂ _ ih

theorem lookupR_popR_self {r : Row} (hnd : (r.map Prod.fst).Nodup)
    (k : String) : lookupR (popR r k) k = none := by
  induction r with
  | nil => simp [popR, lookupR]
  | cons head tail ih =>
      obtain ⟨a, b⟩ := head
      simp only [List.map_cons, List.nodup_cons] at hnd
      by_cases hak : a = k
      · subst hak
        simp only [popR, if_pos rfl]
        cases hl : lookupR tail a with
        | none => exact hl
        | some w =>
            exfalso
            have : a ∈ tail.map Prod.fst := by
              clear ih hnd
              induction tail with
              | nil => simp [lookupR] at hl
              | cons h2 t2 ih2 =>
                  obtain ⟨c, d⟩ := h2
                  by_cases hca : c = a
                  · simp [hca]
                  · simp only [lookupR, hca] at hl
                    simp [hca] at hl
                    simp [ih2 hl]
            exact hnd.1 this
      · simp [popR, lookupR, hak, ih hnd.2]

theorem mem_keys_of_lookupR {r : Row} {k : String} {v : JVal}
    (h : lookupR r k = some v) : k ∈ r.map Prod.fst := by
  induction r with
  | nil => simp [lookupR] at h
  | cons head tail ih =>
      obtain ⟨a, b⟩ := head
      by_cases hak : a = k
      · simp [hak]
      · simp only [lookupR, hak, if_false] at h
        simp only [List.map_cons, List.mem_cons]
        right
        exact ih h

theorem lookupR_some_iff {r : Row} (hnd : (r.map Prod.fst).Nodup)
    (k : String) (v : JVal) : lookupR r k = some v ↔ (k, v) ∈ r := by
  induction r with
  | nil => simp [lookupR]
  | cons head tail ih =>
      obtain ⟨a, b⟩ := head
      simp only [List.map_cons, List.nodup_cons] at hnd
      by_cases hak : a = k
      · subst hak
        simp only [lookupR, if_pos rfl, List.mem_cons]
        constructor
        · intro h
          left
          injection h with h
          rw [h]
        · rintro (h | h)
          · injection h with h1 h2
            simp [h2]
          · exfalso
            exact hnd.1 (List.mem_map_of_mem Prod.fst h)
      · simp only [lookupR, hak, if_false, List.mem_cons]
        rw [ih hnd.2]
        constructor
        · intro h
          right
          exact h
        · rintro (h | h)
          · exfalso
            injection h with h1 h2
            exact hak h1.symm
          · exact h

theorem lookupR_popDue_snd (r : Row) {key : String}
    (h1 : key ≠ "DueDate") (h2 : key ≠ "Due Date") :
    lookupR (popDue r).2 key = lookupR r key := by
  unfold popDue
  split_ifs
  · exact lookupR_popR_ne r h1
  · simp only
    rw [lookupR_popR_ne _ h2, lookupR_popR_ne _ h1]

theorem lookupR_dueStep_ne (pd : JVal → Option (ℤ × ℚ)) (ti : ℤ → String)
    (r : Row) {key : String} (h1 : key ≠ "DueDate") (h2 : key ≠ "Due Date") :
    lookupR (dueStep pd ti r) key = lookupR r key := by
  unfold dueStep
  split_ifs with ht
  · cases hp : pd (popDue r).1 with
    | none => rw [lookupR_setR_ne _ _ h1, lookupR_popDue_snd r h1 h2]
    | some dt => rw [lookupR_setR_ne _ _ h1, lookupR_popDue_snd r h1 h2]
  · rw [lookupR_setR_ne _ _ h1, lookupR_popDue_snd r h1 h2]

theorem lookupR_dueStep_dueDate (pd : JVal → Option (ℤ × ℚ))
    (ti : ℤ → String) (r : Row) :
    lookupR (dueStep pd ti r) "DueDate" =
      some (if truthy (popDue r).1 then
              match pd (popDue r).1 with
              | some dt => JVal.str (ti dt.1)
              | none => JVal.null
            else JVal.null) := by
  unfold dueStep
  split_ifs with ht
  · cases hp : pd (popDue r).1 with
    | none => rw [lookupR_setR_self]
    | some dt => rw [lookupR_setR_self]
  · rw [lookupR_setR_self]

theorem lookupR_dueStep_not_dueDate (pd : JVal → Option (ℤ × ℚ))
    (ti : ℤ → String) (row : Row) {key : String} (hk : key ≠ "DueDate") :
    lookupR (dueStep pd ti row) key = lookupR (popDue row).2 key := by
  unfold dueStep
  split_ifs with ht
  · cases hp : pd (popDue row).1 with
    | none => rw [lookupR_setR_ne _ _ hk]
    | some dt => rw [lookupR_setR_ne _ _ hk]
  · rw [lookupR_setR_ne _ _ hk]

theorem popR_keys_nodup {r : Row} (h : (r.map Prod.fst).Nodup)
    (k : String) : ((popR r k).map Prod.fst).Nodup :=
  List.Nodup.sublist (List.Sublist.map Prod.fst (popR_sublist r k)) h

theorem processRow_some (pd : JVal → Option (ℤ × ℚ)) (ti : ℤ → String)
    (row : Row) (m : ℤ) (h : coerceMins row = some m) :
    processRow pd ti row =
      some (dueStep pd ti
        (setdefaultR (setdefaultR (setdefaultR (setdefaultR (setdefaultR
          (setR (setR row "Est. Minutes" (.num (m : ℚ)))
            "Timer Category" (.str (_bucket (m : ℚ))))
          "Client" (.str "General")) "Project" (.str "General"))
          "Early Bonus" (.num 0)) "Penalty" (.num 0))
          "Actual Minutes" JVal.null)) := by
  simp [processRow, h]

theorem processRow_none (pd : JVal → Option (ℤ × ℚ)) (ti : ℤ → String)
    (row : Row) (h : coerceMins row = none) :
    processRow pd ti row = none := by
  simp [processRow, h]

theorem processRow_estMinutes_timerCategory
    (pd : JVal → Option (ℤ × ℚ)) (ti : ℤ → String) (row out : Row)
    (m : ℤ) (h : coerceMins row = some m)
    (hout : processRow pd ti row = some out) :
    lookupR out "Est. Minutes" = some (.num (m : ℚ)) ∧
    lookupR out "Timer Category" = some (.str (_bucket (m : ℚ))) := by
  rw [processRow_some pd ti row m h] at hout
  injection hout with hout
  subst hout
  constructor
  · rw [lookupR_dueStep_ne _ _ _ (by decide) (by decide),
        lookupR_setdefaultR_ne _ _ (by decide),
        lookupR_setdefaultR_ne _ _ (by decide),
        lookupR_setdefaultR_ne _ _ (by decide),
        lookupR_setdefaultR_ne _ _ (by decide),
        lookupR_setdefaultR_ne _ _ (by decide),
        lookupR_setR_ne _ _ (by decide),
        lookupR_setR_self]
  · rw [lookupR_dueStep_ne _ _ _ (by decide) (by decide),
        lookupR_setdefaultR_ne _ _ (by decide),
        lookupR_setdefaultR_ne _ _ (by decide),
        lookupR_setdefaultR_ne _ _ (by decide),
        lookupR_setdefaultR_ne _ _ (by decide),
        lookupR_setdefaultR_ne _ _ (by decide),
        lookupR_setR_self]

theorem mapM_option_mem {α β : Type} (f : α → Option β) :
    ∀ (xs : List α) (ys : List β), xs.mapM f = some ys →
      ∀ y ∈ ys, ∃ x, x ∈ xs ∧ f x = some y := by
  intro xs
  induction xs with
  | nil =>
      intro ys h y hy
      simp only [List.mapM_nil, pure] at h
      injection h with h
      subst h
      simp at hy
  | cons a as ih =>
      intro ys h y hy
      rw [List.mapM_cons] at h
      cases hfa : f a with
      | none => rw [hfa] at h; simp at h
      | some b =>
          rw [hfa] at h
          cases hrest : as.mapM f with
          | none => rw [hrest] at h; simp at h
          | some bs =>
              rw [hrest] at h
              simp only [Option.bind_eq_bind, Option.some_bind, pure] at h
              injection h with h
              subst h
              rcases List.mem_cons.mp hy with hy1 | hy2
              · exact ⟨a, List.mem_cons_self a as, hy1 ▸ hfa⟩
              · obtain ⟨x, hx1, hx2⟩ := ih bs hrest y hy2
                exact ⟨x, List.mem_cons_of_mem a hx1, hx2⟩

theorem cleanRow_keys_nodup {r : Row} (h : (r.map Prod.fst).Nodup) :
    ((cleanRow r).map Prod.fst).Nodup :=
  List.Nodup.sublist (List.Sublist.map Prod.fst (List.filter_sublist r)) h

theorem mem_cleanRow_iff (r : Row) (kv : String × JVal) :
    kv ∈ cleanRow r ↔
      kv ∈ r ∧ kv.1 ∈ MUTABLE_FIELDS ∧ isNull kv.2 = false := by
  unfold cleanRow
  rw [List.mem_filter]
  simp [List.elem_iff]

theorem schedule_reminders_nudge_mem (fromIso : String → Option ℤ)
    (row : Row) (tv : JVal) (ht : lookupR row "Task" = some tv) :
    Job.nudge (4 * 60 * 60) tv ∈ (schedule_reminders fromIso row).1 := by
  unfold schedule_reminders
  rw [ht]
  dsimp only
  by_cases hdv : truthy (getR row "DueDate" JVal.null) = true
  · rw [if_pos hdv]
    cases hv : getR row "DueDate" JVal.null with
    | str s =>
        dsimp only
        cases hfi : fromIso s with
        | some d => simp
        | none => simp
    | null => simp
    | bool b => simp
    | num q => simp
    | arr xs => simp
    | obj kvs => simp
  · rw [if_neg hdv]
    simp

theorem schedule_reminders_due (fromIso : String → Option ℤ)
    (row : Row) (tv : JVal) (s : String) (d : ℤ)
    (ht : lookupR row "Task" = some tv)
    (hd : lookupR row "DueDate" = some (.str s)) (hne : s ≠ "")
    (hfi : fromIso s = some d) :
    schedule_reminders fromIso row =
      ([Job.nudge (4 * 60 * 60) tv,
        Job.dueReminder (ts9 (d - 1)) tv "⏳ due *tomorrow*",
        Job.dueReminder (ts9 d) tv "🚨 due *today*",
        Job.dueReminder (ts9 (d - 2)) tv "⚠️ due in 2 days"], true) := by
  have hg : getR row "DueDate" JVal.null = JVal.str s := by
    unfold getR
    rw [hd]
    rfl
  unfold schedule_reminders
  rw [ht]
  dsimp only
  rw [hg]
  have htr : truthy (JVal.str s) = true := by
    simp [truthy, hne]
  rw [if_pos htr]
  dsimp only
  rw [hfi]

theorem schedule_reminders_no_due (fromIso : String → Option ℤ)
    (row : Row) (tv : JVal) (ht : lookupR row "Task" = some tv)
    (hdv : truthy (getR row "DueDate" JVal.null) = false) :
    schedule_reminders fromIso row = ([Job.nudge (4 * 60 * 60) tv], true) := by
  unfold schedule_reminders
  rw [ht]
  dsimp only
  rw [if_neg (by rw [hdv]; exact Bool.false_ne_true)]

/-! ## Claim theorems -/

/-- C1: for every row created on the `/add` path the scheduling block
registers the 4-hour nudge — `run_once(_after_4h, 4*60*60)`, a delay of
4 hours from creation time — whatever the due date is; and whenever the
row's `DueDate` is present (a truthy ISO string, parsed by
`fromisoformat` to the calendar day `d`), it additionally registers
due-date reminders whose `when` values are the POSIX timestamps of
09:00 local time on the day two days before `d`, the day before `d`,
and `d` itself (`ts9`), with the matching labels. -/
theorem add_schedules_nudge_and_due_reminders
    (fromIso : String → Option ℤ) (row : Row) (tv : JVal)
    (ht : lookupR row "Task" = some tv) :
    Job.nudge (4 * 60 * 60) tv ∈ (schedule_reminders fromIso row).1 ∧
    (∀ s d, lookupR row "DueDate" = some (.str s) → s ≠ "" →
      fromIso s = some d →
      (schedule_reminders fromIso row).1 =
        [Job.nudge (4 * 60 * 60) tv,
         Job.dueReminder (ts9 (d - 1)) tv "⏳ due *tomorrow*",
         Job.dueReminder (ts9 d) tv "🚨 due *today*",
         Job.dueReminder (ts9 (d - 2)) tv "⚠️ due in 2 days"]) := by
  constructor
  · exact schedule_reminders_nudge_mem fromIso row tv ht
  · intro s d hd hne hfi
    rw [schedule_reminders_due fromIso row tv s d ht hd hne hfi]

/-- Witness for C1 at a concrete row: task "milk" due on epoch day
20148 (= 2025-03-01). -/
theorem add_schedules_nudge_and_due_reminders_witness :
    Job.nudge (4 * 60 * 60) (JVal.str "milk") ∈
      (schedule_reminders (fun _ => some 20148)
        [("Task", JVal.str "milk"),
         ("DueDate", JVal.str "2025-03-01")]).1 ∧
    (schedule_reminders (fun _ => some 20148)
        [("Task", JVal.str "milk"),
         ("DueDate", JVal.str "2025-03-01")]).1 =
      [Job.nudge (4 * 60 * 60) (JVal.str "milk"),
       Job.dueReminder (ts9 (20148 - 1)) (JVal.str "milk") "⏳ due *tomorrow*",
       Job.dueReminder (ts9 20148) (JVal.str "milk") "🚨 due *today*",
       Job.dueReminder (ts9 (20148 - 2)) (JVal.str "milk") "⚠️ due in 2 days"] :=
  ⟨(add_schedules_nudge_and_due_reminders (fun _ => some 20148)
      [("Task", JVal.str "milk"), ("DueDate", JVal.str "2025-03-01")]
      (JVal.str "milk") rfl).1,
   (add_schedules_nudge_and_due_reminders (fun _ => some 20148)
      [("Task", JVal.str "milk"), ("DueDate", JVal.str "2025-03-01")]
      (JVal.str "milk") rfl).2 "2025-03-01" 20148 rfl (by decide) rfl⟩

/-- C5 is false on the code: a task whose due date is tomorrow gets FOUR
scheduled entries, not three.  Concretely: due day 20555 (= 2026-04-12,
"tomorrow" for a creation on 2026-04-11); the handler registers the
nudge plus all three due reminders, including the two-days-before one. -/
theorem add_due_tomorrow_counterexample :
    ((schedule_reminders (fun _ => some 20555)
        [("Task", JVal.str "t"),
         ("DueDate", JVal.str "2026-04-12")]).1).length = 4 ∧
    ¬ ((schedule_reminders (fun _ => some 20555)
        [("Task", JVal.str "t"),
         ("DueDate", JVal.str "2026-04-12")]).1).length = 3 :=
  ⟨rfl, by decide⟩

/-- C5 amended: a task created with due date equal to tomorrow gets
three due-date reminders — 09:00 today ("due tomorrow"), 09:00 on the
due day ("due today"), and 09:00 yesterday ("due in 2 days", an instant
strictly before today's 09:00, already past, still submitted) — plus
the 4-hour nudge: four scheduled entries in total. -/
theorem add_due_tomorrow_schedules_four
    (today : ℤ) (fromIso : String → Option ℤ) (row : Row) (tv : JVal)
    (s : String) (ht : lookupR row "Task" = some tv)
    (hd : lookupR row "DueDate" = some (.str s)) (hne : s ≠ "")
    (hfi : fromIso s = some (today + 1)) :
    (schedule_reminders fromIso row).1 =
      [Job.nudge (4 * 60 * 60) tv,
       Job.dueReminder (ts9 today) tv "⏳ due *tomorrow*",
       Job.dueReminder (ts9 (today + 1)) tv "🚨 due *today*",
       Job.dueReminder (ts9 (today - 1)) tv "⚠️ due in 2 days"] ∧
    ((schedule_reminders fromIso row).1).length = 4 ∧
    ts9 (today - 1) < ts9 today := by
  have h := schedule_reminders_due fromIso row tv s (today + 1) ht hd hne hfi
  have e1 : today + 1 - 1 = today := by ring
  have e2 : today + 1 - 2 = today - 1 := by ring
  rw [h, e1, e2]
  refine ⟨rfl, rfl, ?_⟩
  unfold ts9
  linarith

/-- Witness for the amended C5: today = epoch day 20554, due 20555. -/
theorem add_due_tomorrow_schedules_four_witness :
    (schedule_reminders (fun _ => some (20554 + 1))
        [("Task", JVal.str "t"),
         ("DueDate", JVal.str "2026-04-12")]).1 =
      [Job.nudge (4 * 60 * 60) (JVal.str "t"),
       Job.dueReminder (ts9 20554) (JVal.str "t") "⏳ due *tomorrow*",
       Job.dueReminder (ts9 (20554 + 1)) (JVal.str "t") "🚨 due *today*",
       Job.dueReminder (ts9 (20554 - 1)) (JVal.str "t") "⚠️ due in 2 days"] ∧
    ((schedule_reminders (fun _ => some (20554 + 1))
        [("Task", JVal.str "t"),
         ("DueDate", JVal.str "2026-04-12")]).1).length = 4 ∧
    ts9 (20554 - 1) < ts9 20554 :=
  add_due_tomorrow_schedules_four 20554 (fun _ => some (20554 + 1))
    [("Task", JVal.str "t"), ("DueDate", JVal.str "2026-04-12")]
    (JVal.str "t") "2026-04-12" rfl rfl (by decide) rfl

/-- C3: `_bucket` is total and pure — every rational minutes value gets
exactly one of the six labels of `CATEGORIES`; the label follows the
fixed inclusive upper boundaries 1.5, 5, 10, 25, 60 in ascending order
(first matching boundary wins); and the label's position in the ordered
`CATEGORIES` list is monotone non-decreasing in the duration. -/
theorem bucket_total_table_monotone :
    (∀ m : ℚ, _bucket m ∈ CATEGORIES) ∧
    (∀ m : ℚ,
      (m ≤ 1.5 → _bucket m = "🕑 Lifeline") ∧
      (1.5 < m → m ≤ 5 → _bucket m = "⚡ Quick Task") ∧
      (5 < m → m ≤ 10 → _bucket m = "🔹 Small Task") ∧
      (10 < m → m ≤ 25 → _bucket m = "🔸 Focused Sprint") ∧
      (25 < m → m ≤ 60 → _bucket m = "🔶 1 Hour Challenge") ∧
      (60 < m → _bucket m = "🔥 Deep Work")) ∧
    (∀ m n : ℚ, m ≤ n → catIdx (_bucket m) ≤ catIdx (_bucket n)) := by
  refine ⟨?_, ?_, ?_⟩
  · intro m
    unfold _bucket
    split_ifs <;> decide
  · intro m
    refine ⟨?_, ?_, ?_, ?_, ?_, ?_⟩ <;> intros <;> unfold _bucket <;>
      split_ifs <;> first | rfl | linarith
  · intro m n h
    unfold _bucket
    split_ifs <;> first | decide | linarith

/-- Witness for C3: 10 minutes is a Small Task (boundary inclusive),
180 minutes lies in `CATEGORIES` (Deep Work), and 3 ≤ 90 maps to
non-decreasing category positions. -/
theorem bucket_total_table_monotone_witness :
    _bucket 180 ∈ CATEGORIES ∧
    _bucket 10 = "🔹 Small Task" ∧
    catIdx (_bucket 3) ≤ catIdx (_bucket 90) :=
  ⟨bucket_total_table_monotone.1 180,
   (bucket_total_table_monotone.2.1 10).2.2.1 (by norm_num) (by norm_num),
   bucket_total_table_monotone.2.2 3 90 (by norm_num)⟩

/-- C2: in every valid extraction response, every returned element
carries a `Timer Category` equal to `_bucket` of the integer stored in
its `Est. Minutes` field — the category is recomputed from the coerced
duration, so whatever category the upstream model supplied is
overwritten (the row is universally quantified, including rows that
arrive with a different `Timer Category` value). -/
theorem analyse_timerCategory_eq_bucket
    (llm : String → Except String String) (parseJson : String → Option JVal)
    (pd : JVal → Option (ℤ × ℚ)) (ti : ℤ → String)
    (text : String) (clients projects : List String)
    (out : List Row) (r : Row)
    (hok : analyse_tasks llm parseJson pd ti text clients projects = .ok out)
    (hr : r ∈ out) :
    ∃ m : ℤ, lookupR r "Est. Minutes" = some (.num (m : ℚ)) ∧
      lookupR r "Timer Category" = some (.str (_bucket (m : ℚ))) := by
  unfold analyse_tasks at hok
  cases hllm : llm (promptFor clients projects text) with
  | error e => rw [hllm] at hok; exact Except.noConfusion hok
  | ok content =>
      rw [hllm] at hok
      dsimp only at hok
      cases hpj : parseJson content with
      | none => rw [hpj] at hok; exact Except.noConfusion hok
      | some data =>
          rw [hpj] at hok
          dsimp only at hok
          cases har : asRows (unwrapData data) with
          | none => rw [har] at hok; exact Except.noConfusion hok
          | some rows =>
              rw [har] at hok
              dsimp only at hok
              cases hmm : rows.mapM (processRow pd ti) with
              | none => rw [hmm] at hok; exact Except.noConfusion hok
              | some res =>
                  rw [hmm] at hok
                  injection hok with hok
                  subst hok
                  obtain ⟨r0, _, hpr⟩ := mapM_option_mem _ rows res hmm r hr
                  cases hcm : coerceMins r0 with
                  | none =>
                      rw [processRow_none pd ti r0 hcm] at hpr
                      exact Option.noConfusion hpr
                  | some m =>
                      exact ⟨m, processRow_estMinutes_timerCategory
                        pd ti r0 r m hcm hpr⟩

/-- Witness for C2: a response element arriving with `Timer Category`
"bogus" and `Est. Minutes` 7 comes back with the category recomputed as
`_bucket 7` (= "🔹 Small Task"), the model's value discarded. -/
theorem analyse_timerCategory_eq_bucket_witness :
    ∃ m : ℤ,
      lookupR [("Task", JVal.str "t"),
               ("Timer Category", JVal.str (_bucket ((7 : ℤ) : ℚ))),
               ("Est. Minutes", JVal.num ((7 : ℤ) : ℚ)),
               ("Client", JVal.str "General"),
               ("Project", JVal.str "General"),
               ("Early Bonus", JVal.num 0),
               ("Penalty", JVal.num 0),
               ("Actual Minutes", JVal.null),
               ("DueDate", JVal.null)] "Est. Minutes" =
        some (.num (m : ℚ)) ∧
      lookupR [("Task", JVal.str "t"),
               ("Timer Category", JVal.str (_bucket ((7 : ℤ) : ℚ))),
               ("Est. Minutes", JVal.num ((7 : ℤ) : ℚ)),
               ("Client", JVal.str "General"),
               ("Project", JVal.str "General"),
               ("Early Bonus", JVal.num 0),
               ("Penalty", JVal.num 0),
               ("Actual Minutes", JVal.null),
               ("DueDate", JVal.null)] "Timer Category" =
        some (.str (_bucket (m : ℚ))) :=
  analyse_timerCategory_eq_bucket
    (fun _ => .ok "resp")
    (fun _ => some (.arr [.obj [("Task", JVal.str "t"),
                                ("Timer Category", JVal.str "bogus"),
                                ("Est. Minutes", JVal.num 7)]]))
    (fun _ => none) (fun _ => "") "text" ["General"] ["General"]
    [[("Task", JVal.str "t"),
      ("Timer Category", JVal.str (_bucket ((7 : ℤ) : ℚ))),
      ("Est. Minutes", JVal.num ((7 : ℤ) : ℚ)),
      ("Client", JVal.str "General"),
      ("Project", JVal.str "General"),
      ("Early Bonus", JVal.num 0),
      ("Penalty", JVal.num 0),
      ("Actual Minutes", JVal.null),
      ("DueDate", JVal.null)]]
    [("Task", JVal.str "t"),
     ("Timer Category", JVal.str (_bucket ((7 : ℤ) : ℚ))),
     ("Est. Minutes", JVal.num ((7 : ℤ) : ℚ)),
     ("Client", JVal.str "General"),
     ("Project", JVal.str "General"),
     ("Early Bonus", JVal.num 0),
     ("Penalty", JVal.num 0),
     ("Actual Minutes", JVal.null),
     ("DueDate", JVal.null)]
    (by rfl) (List.mem_singleton.mpr rfl)

/-- C4 is false on the code: `int(row.get("Est. Minutes", 0) or 0)`
raises on a truthy non-numeric string (the `or 0` only rescues falsy
values), so the coercion CAN fail — with `"ten"` the whole row
processing raises; and a model-supplied negative number is kept, so the
stored value need not be non-negative. -/
theorem estMinutes_coercion_counterexample :
    processRow (fun _ => none) (fun _ => "")
      [("Task", JVal.str "t"), ("Est. Minutes", JVal.str "ten")] = none ∧
    (∃ out, processRow (fun _ => none) (fun _ => "")
        [("Task", JVal.str "t"), ("Est. Minutes", JVal.num (-5))] =
          some out ∧
      ∃ q : ℚ, lookupR out "Est. Minutes" = some (JVal.num q) ∧ q < 0) :=
  ⟨rfl, ⟨_, rfl, ((-5 : ℤ) : ℚ), rfl, by norm_num⟩⟩

/-- C4 amended: after processing, `Est. Minutes` holds an integer
(possibly negative); it holds 0 whenever the incoming field is missing
or falsy (null, False, 0, empty string/list/dict); but when the field
holds a truthy string that `int()` cannot parse, the coercion raises
and the element's processing fails — the exception propagates instead
of defaulting to 0. -/
theorem estMinutes_coercion_amended
    (pd : JVal → Option (ℤ × ℚ)) (ti : ℤ → String) (row : Row) :
    ((lookupR row "Est. Minutes" = none ∨
        (∃ v, lookupR row "Est. Minutes" = some v ∧ truthy v = false)) →
      ∃ out, processRow pd ti row = some out ∧
        lookupR out "Est. Minutes" = some (JVal.num 0)) ∧
    (∀ s, lookupR row "Est. Minutes" = some (JVal.str s) →
      truthy (JVal.str s) = true → pyIntOfStr s = none →
      processRow pd ti row = none) ∧
    (∀ out, processRow pd ti row = some out →
      ∃ m : ℤ, lookupR out "Est. Minutes" = some (JVal.num (m : ℚ))) := by
  refine ⟨?_, ?_, ?_⟩
  · intro h
    have hcm : coerceMins row = some 0 := by
      unfold coerceMins getR
      rcases h with h | ⟨v, hv, htr⟩
      · rw [h]
        rfl
      · rw [hv]
        simp only [Option.getD_some, htr, Bool.false_eq_true, if_false]
        rfl
    obtain ⟨out, hout⟩ :
        ∃ out, processRow pd ti row = some out :=
      ⟨_, processRow_some pd ti row 0 hcm⟩
    refine ⟨out, hout, ?_⟩
    have := (processRow_estMinutes_timerCategory pd ti row out 0 hcm hout).1
    rw [this]
    norm_num
  · intro s hs htr hstr
    apply processRow_none
    unfold coerceMins getR
    rw [hs]
    simp only [Option.getD_some]
    rw [if_pos htr]
    exact hstr
  · intro out hout
    cases hcm : coerceMins row with
    | none =>
        rw [processRow_none pd ti row hcm] at hout
        exact Option.noConfusion hout
    | some m =>
        exact ⟨m, (processRow_estMinutes_timerCategory
          pd ti row out m hcm hout).1⟩

/-- Witness for the amended C4: a row with no `Est. Minutes` key gets 0;
a row holding the unparseable string "soon" makes processing fail. -/
theorem estMinutes_coercion_amended_witness :
    (∃ out, processRow (fun _ => none) (fun _ => "")
        [("Task", JVal.str "t")] = some out ∧
      lookupR out "Est. Minutes" = some (JVal.num 0)) ∧
    processRow (fun _ => none) (fun _ => "")
      [("Task", JVal.str "t"), ("Est. Minutes", JVal.str "soon")] = none :=
  ⟨(estMinutes_coercion_amended (fun _ => none) (fun _ => "")
      [("Task", JVal.str "t")]).1 (Or.inl rfl),
   (estMinutes_coercion_amended (fun _ => none) (fun _ => "")
      [("Task", JVal.str "t"), ("Est. Minutes", JVal.str "soon")]).2.1
     "soon" rfl (by decide) (by decide)⟩

/-- C7 is false on the code: the allowed-vocabulary lists only shape the
prompt; `row.setdefault("Client", "General")` keeps any model-supplied
value, so a `Client` outside the vocabulary survives unchanged. -/
theorem client_vocab_counterexample :
    ∃ r : Row,
      analyse_tasks (fun _ => .ok "resp")
        (fun _ => some (.arr [.obj [("Task", JVal.str "t"),
                                    ("Client", JVal.str "Zeta")]]))
        (fun _ => none) (fun _ => "") "text" ["General"] ["General"] =
        .ok [r] ∧
      lookupR r "Client" = some (JVal.str "Zeta") ∧
      ("Zeta" : String) ∉ (["General"] : List String) :=
  ⟨[("Task", JVal.str "t"),
    ("Client", JVal.str "Zeta"),
    ("Est. Minutes", JVal.num ((0 : ℤ) : ℚ)),
    ("Timer Category", JVal.str (_bucket ((0 : ℤ) : ℚ))),
    ("Project", JVal.str "General"),
    ("Early Bonus", JVal.num 0),
    ("Penalty", JVal.num 0),
    ("Actual Minutes", JVal.null),
    ("DueDate", JVal.null)], by rfl, rfl, by decide⟩

/-- C7 amended: `Client` and `Project` are set to "General" only when
the key is absent from the response element; a present value is kept
verbatim, whether or not it belongs to the allowed vocabulary (the
vocabulary only parameterizes the prompt text). -/
theorem client_project_default_amended
    (pd : JVal → Option (ℤ × ℚ)) (ti : ℤ → String) (row out : Row)
    (hout : processRow pd ti row = some out) :
    (lookupR row "Client" = none →
      lookupR out "Client" = some (JVal.str "General")) ∧
    (∀ v, lookupR row "Client" = some v →
      lookupR out "Client" = some v) ∧
    (lookupR row "Project" = none →
      lookupR out "Project" = some (JVal.str "General")) ∧
    (∀ v, lookupR row "Project" = some v →
      lookupR out "Project" = some v) := by
  cases hcm : coerceMins row with
  | none =>
      rw [processRow_none pd ti row hcm] at hout
      exact Option.noConfusion hout
  | some m =>
      rw [processRow_some pd ti row m hcm] at hout
      injection hout with hout
      subst hout
      have hcl :
          lookupR (dueStep pd ti
            (setdefaultR (setdefaultR (setdefaultR (setdefaultR (setdefaultR
              (setR (setR row "Est. Minutes" (.num (m : ℚ)))
                "Timer Category" (.str (_bucket (m : ℚ))))
              "Client" (.str "General")) "Project" (.str "General"))
              "Early Bonus" (.num 0)) "Penalty" (.num 0))
              "Actual Minutes" JVal.null)) "Client" =
            some ((lookupR row "Client").getD (JVal.str "General")) := by
        rw [lookupR_dueStep_ne _ _ _ (by decide) (by decide),
            lookupR_setdefaultR_ne _ _ (by decide),
            lookupR_setdefaultR_ne _ _ (by decide),
            lookupR_setdefaultR_ne _ _ (by decide),
            lookupR_setdefaultR_ne _ _ (by decide),
            lookupR_setdefaultR_self,
            lookupR_setR_ne _ _ (by decide),
            lookupR_setR_ne _ _ (by decide)]
      have hpj :
          lookupR (dueStep pd ti
            (setdefaultR (setdefaultR (setdefaultR (setdefaultR (setdefaultR
              (setR (setR row "Est. Minutes" (.num (m : ℚ)))
                "Timer Category" (.str (_bucket (m : ℚ))))
              "Client" (.str "General")) "Project" (.str "General"))
              "Early Bonus" (.num 0)) "Penalty" (.num 0))
              "Actual Minutes" JVal.null)) "Project" =
            some ((lookupR row "Project").getD (JVal.str "General")) := by
        rw [lookupR_dueStep_ne _ _ _ (by decide) (by decide),
            lookupR_setdefaultR_ne _ _ (by decide),
            lookupR_setdefaultR_ne _ _ (by decide),
            lookupR_setdefaultR_ne _ _ (by decide),
            lookupR_setdefaultR_self,
            lookupR_setdefaultR_ne _ _ (by decide),
            lookupR_setR_ne _ _ (by decide),
            lookupR_setR_ne _ _ (by decide)]
      refine ⟨?_, ?_, ?_, ?_⟩
      · intro h
        rw [hcl, h]
        rfl
      · intro v h
        rw [hcl, h]
        rfl
      · intro h
        rw [hpj, h]
        rfl
      · intro v h
        rw [hpj, h]
        rfl

/-- Witness for the amended C7: a row without `Client` gets "General";
a row with the out-of-vocabulary value "Zeta" keeps it. -/
theorem client_project_default_amended_witness :
    lookupR (dueStep (fun _ => none) (fun _ => "")
        (setdefaultR (setdefaultR (setdefaultR (setdefaultR (setdefaultR
          (setR (setR [("Task", JVal.str "t"),
                       ("Client", JVal.str "Zeta")]
              "Est. Minutes" (.num ((0 : ℤ) : ℚ)))
            "Timer Category" (.str (_bucket ((0 : ℤ) : ℚ))))
          "Client" (.str "General")) "Project" (.str "General"))
          "Early Bonus" (.num 0)) "Penalty" (.num 0))
          "Actual Minutes" JVal.null)) "Client" =
      some (JVal.str "Zeta") :=
  (client_project_default_amended (fun _ => none) (fun _ => "")
    [("Task", JVal.str "t"), ("Client", JVal.str "Zeta")] _
    (processRow_some (fun _ => none) (fun _ => "")
      [("Task", JVal.str "t"), ("Client", JVal.str "Zeta")] 0 rfl)).2.1
    (JVal.str "Zeta") rfl

/-- C8 is false on the code in one corner: `row.pop("DueDate", None) or
row.pop("Due Date", None)` short-circuits, so when BOTH spellings are
present and the `"DueDate"` value is truthy, the raw `"Due Date"`
phrase is never popped and survives in the output record. -/
theorem dueDate_raw_key_survives_counterexample :
    lookupR (dueStep (fun _ => some (20148, 0)) (fun _ => "2025-03-01")
      [("Task", JVal.str "t"), ("DueDate", JVal.str "tomorrow"),
       ("Due Date", JVal.str "junk")]) "Due Date" =
      some (JVal.str "junk") ∧
    lookupR (dueStep (fun _ => some (20148, 0)) (fun _ => "2025-03-01")
      [("Task", JVal.str "t"), ("DueDate", JVal.str "tomorrow"),
       ("Due Date", JVal.str "junk")]) "DueDate" =
      some (JVal.str "2025-03-01") :=
  ⟨rfl, rfl⟩

/-- C8 amended: due-date normalization never raises; the output's
`DueDate` always holds either null or the ISO rendering of the parsed
calendar date (the time-of-day component is discarded); an absent or
falsy raw phrase yields null; a phrase the parser rejects yields null;
and the raw-phrase keys are dropped — `"Due Date"` is guaranteed gone
whenever the `"DueDate"` spelling was absent or falsy, or was not in
the row at all, but (per the counterexample) survives when both
spellings are present with a truthy `"DueDate"`. -/
theorem dueDate_normalization_amended
    (pd : JVal → Option (ℤ × ℚ)) (ti : ℤ → String) (row : Row)
    (hnd : (row.map Prod.fst).Nodup) :
    (∃ v, lookupR (dueStep pd ti row) "DueDate" = some v ∧
       (v = JVal.null ∨ ∃ d t, pd (popDue row).1 = some (d, t) ∧
          v = JVal.str (ti d))) ∧
    (truthy (popDue row).1 = false →
       lookupR (dueStep pd ti row) "DueDate" = some JVal.null) ∧
    (pd (popDue row).1 = none →
       lookupR (dueStep pd ti row) "DueDate" = some JVal.null) ∧
    (∀ d t, truthy (popDue row).1 = true → pd (popDue row).1 = some (d, t) →
       lookupR (dueStep pd ti row) "DueDate" = some (JVal.str (ti d))) ∧
    (truthy (getR row "DueDate" JVal.null) = false →
       lookupR (dueStep pd ti row) "Due Date" = none) ∧
    (lookupR row "Due Date" = none →
       lookupR (dueStep pd ti row) "Due Date" = none) := by
  refine ⟨?_, ?_, ?_, ?_, ?_, ?_⟩
  · rw [lookupR_dueStep_dueDate]
    by_cases ht : truthy (popDue row).1 = true
    · cases hp : pd (popDue row).1 with
      | none => exact ⟨_, rfl, by simp [ht, hp]⟩
      | some dt =>
          obtain ⟨d, t⟩ := dt
          refine ⟨_, rfl, Or.inr ⟨d, t, rfl, ?_⟩⟩
          simp [ht]
    · exact ⟨_, rfl, by simp [ht]⟩
  · intro h
    rw [lookupR_dueStep_dueDate]
    simp [h]
  · intro h
    rw [lookupR_dueStep_dueDate]
    by_cases ht : truthy (popDue row).1 = true <;> simp [ht, h]
  · intro d t ht hp
    rw [lookupR_dueStep_dueDate]
    simp [ht, hp]
  · intro h
    rw [lookupR_dueStep_not_dueDate pd ti row (by decide)]
    have h2 : (popDue row).2 = popR (popR row "DueDate") "Due Date" := by
      unfold popDue
      rw [if_neg (by rw [h]; exact Bool.false_ne_true)]
    rw [h2]
    exact lookupR_popR_self (popR_keys_nodup hnd "DueDate") "Due Date"
  · intro h
    rw [lookupR_dueStep_not_dueDate pd ti row (by decide)]
    unfold popDue
    split_ifs with ht
    · rw [lookupR_popR_ne _ (by decide)]
      exact h
    · simp only
      apply lookupR_popR_of_none
      rw [lookupR_popR_ne _ (by decide)]
      exact h

/-- Witness for the amended C8: a row whose only due key holds the
unparseable phrase "x" comes out with `DueDate` null and no raw
`"Due Date"` key. -/
theorem dueDate_normalization_amended_witness :
    lookupR (dueStep (fun _ => none) (fun _ => "")
        [("DueDate", JVal.str "x")]) "DueDate" = some JVal.null ∧
    lookupR (dueStep (fun _ => none) (fun _ => "")
        [("DueDate", JVal.str "x")]) "Due Date" = none :=
  ⟨(dueDate_normalization_amended (fun _ => none) (fun _ => "")
      [("DueDate", JVal.str "x")] (by decide)).2.2.1 rfl,
   (dueDate_normalization_amended (fun _ => none) (fun _ => "")
      [("DueDate", JVal.str "x")] (by decide)).2.2.2.2.2 rfl⟩

/-- C6 is false on the code: only `push_airtable` applies the
allow-list filter; the chat `/add` path (bot.py line 141) hands
`table.create` the row after `row.update(extras);
row.setdefault("Done", False)` with no filtering, so the persisted
record carries the key "Done", which is not in `MUTABLE_FIELDS`. -/
theorem allowlist_counterexample :
    botPrepRow [] [("Task", JVal.str "t")] =
      [("Task", JVal.str "t"), ("Done", JVal.bool false)] ∧
    ("Done" : String) ∉ MUTABLE_FIELDS :=
  ⟨rfl, by decide⟩

/-- C6 amended: records persisted through `push_airtable` contain
exactly the bindings whose key is allow-listed and whose value is not
None — so a record persisted on that path and listed back has no
extraneous key; but the chat `/add` path persists rows unfiltered and
always includes the non-allow-listed key "Done" (and "Priority" when
the flag was given). -/
theorem allowlist_amended :
    (∀ (r : Row) (kv : String × JVal),
        kv ∈ cleanRow r ↔
          kv ∈ r ∧ kv.1 ∈ MUTABLE_FIELDS ∧ isNull kv.2 = false) ∧
    (∀ (rows : List Row) (rec : Row), rec ∈ push_airtable rows →
        ∀ kv ∈ rec, kv.1 ∈ MUTABLE_FIELDS) ∧
    ("Done" : String) ∉ MUTABLE_FIELDS ∧
    (∀ extras row, ∃ v,
        lookupR (botPrepRow extras row) "Done" = some v) := by
  refine ⟨fun r kv => mem_cleanRow_iff r kv, ?_, by decide, ?_⟩
  · intro rows rec hrec kv hkv
    unfold push_airtable at hrec
    obtain ⟨r0, _, hr0⟩ := List.mem_map.mp hrec
    subst hr0
    exact ((mem_cleanRow_iff r0 kv).mp hkv).2.1
  · intro extras row
    unfold botPrepRow
    rw [lookupR_setdefaultR_self]
    exact ⟨_, rfl⟩

/-- Witness for the amended C6: the key of a pair surviving the
`push_airtable` filter is allow-listed; the `/add`-path record for a
one-field row carries a "Done" binding. -/
theorem allowlist_amended_witness :
    ("Task" : String) ∈ MUTABLE_FIELDS ∧
    (∃ v, lookupR (botPrepRow [] [("Task", JVal.str "t")]) "Done" =
      some v) :=
  ⟨allowlist_amended.2.1 [[("Task", JVal.str "t")]]
      (cleanRow [("Task", JVal.str "t")])
      (List.mem_singleton.mpr rfl)
      ("Task", JVal.str "t") (List.mem_singleton.mpr rfl),
   allowlist_amended.2.2.2 [] [("Task", JVal.str "t")]⟩

/-- C10: `push_airtable` writes exactly the key-value pairs whose key
is allow-listed and whose value is not None; in particular a row whose
`DueDate` or `Actual Minutes` is null is persisted with that key
absent, not as an explicit null. -/
theorem push_airtable_writes_exactly
    (r : Row) (hnd : (r.map Prod.fst).Nodup) :
    (∀ (k : String) (v : JVal),
        lookupR (cleanRow r) k = some v ↔
          lookupR r k = some v ∧ k ∈ MUTABLE_FIELDS ∧
            isNull v = false) ∧
    (lookupR r "DueDate" = some JVal.null →
        lookupR (cleanRow r) "DueDate" = none) ∧
    (lookupR r "Actual Minutes" = some JVal.null →
        lookupR (cleanRow r) "Actual Minutes" = none) := by
  have hiff : ∀ (k : String) (v : JVal),
      lookupR (cleanRow r) k = some v ↔
        lookupR r k = some v ∧ k ∈ MUTABLE_FIELDS ∧
          isNull v = false := by
    intro k v
    rw [lookupR_some_iff (cleanRow_keys_nodup hnd) k v,
        lookupR_some_iff hnd k v]
    exact mem_cleanRow_iff r (k, v)
  refine ⟨hiff, ?_, ?_⟩
  · intro h
    cases hc : lookupR (cleanRow r) "DueDate" with
    | none => rfl
    | some v =>
        exfalso
        obtain ⟨h1, _, h3⟩ := (hiff _ _).mp hc
        rw [h] at h1
        injection h1 with h1
        rw [← h1] at h3
        simp [isNull] at h3
  · intro h
    cases hc : lookupR (cleanRow r) "Actual Minutes" with
    | none => rfl
    | some v =>
        exfalso
        obtain ⟨h1, _, h3⟩ := (hiff _ _).mp hc
        rw [h] at h1
        injection h1 with h1
        rw [← h1] at h3
        simp [isNull] at h3

/-- Witness for C10 at a concrete row: null `DueDate` and the foreign
key "Junk" are both absent from the cleaned record, while "Task"
round-trips. -/
theorem push_airtable_writes_exactly_witness :
    lookupR (cleanRow [("Task", JVal.str "t"), ("DueDate", JVal.null),
        ("Junk", JVal.str "x")]) "DueDate" = none ∧
    (lookupR (cleanRow [("Task", JVal.str "t"), ("DueDate", JVal.null),
        ("Junk", JVal.str "x")]) "Task" = some (JVal.str "t") ↔
      lookupR [("Task", JVal.str "t"), ("DueDate", JVal.null),
        ("Junk", JVal.str "x")] "Task" = some (JVal.str "t") ∧
      "Task" ∈ MUTABLE_FIELDS ∧ isNull (JVal.str "t") = false) :=
  ⟨(push_airtable_writes_exactly
      [("Task", JVal.str "t"), ("DueDate", JVal.null),
       ("Junk", JVal.str "x")] (by decide)).2.1 rfl,
   (push_airtable_writes_exactly
      [("Task", JVal.str "t"), ("DueDate", JVal.null),
       ("Junk", JVal.str "x")] (by decide)).1 "Task" (JVal.str "t")⟩

/-- C9: an upstream model failure makes `analyse_tasks` fail with the
distinguishable wrapped error (`RuntimeError("OpenAI error → ...")` in
the source, `PyErr.runtimeErr` here) instead of being swallowed; a
response that is not valid JSON fails with the decode error; and on any
such extraction failure the `/add` handler creates no record, schedules
nothing, and replies with the user-facing failure message. -/
theorem extraction_error_propagates :
    (∀ (llm : String → Except String String)
       (pj : String → Option JVal) (pd : JVal → Option (ℤ × ℚ))
       (ti : ℤ → String) (text : String) (cls prs : List String)
       (e : String),
       llm (promptFor cls prs text) = .error e →
       analyse_tasks llm pj pd ti text cls prs =
         .error (.runtimeErr ("OpenAI error → " ++ e))) ∧
    (∀ (llm : String → Except String String)
       (pj : String → Option JVal) (pd : JVal → Option (ℤ × ℚ))
       (ti : ℤ → String) (text : String) (cls prs : List String)
       (content : String),
       llm (promptFor cls prs text) = .ok content → pj content = none →
       analyse_tasks llm pj pd ti text cls prs =
         .error .jsonDecodeErr) ∧
    (∀ (e : PyErr) (extras : Row) (storeOk : Row → Bool)
       (fromIso : String → Option ℤ),
       add false (.error e) extras storeOk fromIso =
         ⟨[], [], some .gptFail⟩) := by
  refine ⟨?_, ?_, ?_⟩
  · intro llm pj pd ti text cls prs e h
    unfold analyse_tasks
    rw [h]
  · intro llm pj pd ti text cls prs content h1 h2
    unfold analyse_tasks
    rw [h1]
    dsimp only
    rw [h2]
  · intro e extras storeOk fromIso
    rfl

/-- Witness for C9: an auth failure "401" propagates wrapped; a model
answer the JSON parser rejects propagates as the decode error; the
handler's outcome on an extraction error is no creation, no jobs, and
the failure reply. -/
theorem extraction_error_propagates_witness :
    analyse_tasks (fun _ => .error "401") (fun _ => none) (fun _ => none)
        (fun _ => "") "txt" [] [] =
      .error (.runtimeErr ("OpenAI error → " ++ "401")) ∧
    analyse_tasks (fun _ => .ok "oops") (fun _ => none) (fun _ => none)
        (fun _ => "") "txt" [] [] = .error .jsonDecodeErr ∧
    add false (.error .jsonDecodeErr) [] (fun _ => true) (fun _ => none) =
      ⟨[], [], some .gptFail⟩ :=
  ⟨extraction_error_propagates.1 (fun _ => .error "401") (fun _ => none)
      (fun _ => none) (fun _ => "") "txt" [] [] "401" rfl,
   extraction_error_propagates.2.1 (fun _ => .ok "oops") (fun _ => none)
      (fun _ => none) (fun _ => "") "txt" [] [] "oops" rfl rfl,
   extraction_error_propagates.2.2 .jsonDecodeErr [] (fun _ => true)
      (fun _ => none)⟩
